import Mathlib

/-!
Verification development for the `azure_loader` transfer pipeline
(`src/main.go`). The Go program reads tab-separated (bucket, key) lines,
runs a fixed pool of workers that copy each object from S3 to Azure blob
storage, and aggregates per-item outcomes on a shared results channel.

The shallow embedding below translates the pure control flow of the
program into Lean. The external storage collaborators (the S3 and Azure
SDK clients) are modelled as an environment of functions returning either
success or an error message; machine I/O is represented by explicit data
(lists of read events, lists of channel values). `log.Fatal` paths are
represented as `Except.error`, and the erroneous-vs-successful process
exit is captured in the aggregator output record.
-/

namespace AzureLoader

/-! ## Container-name mapping (main.go:97)

`strings.ReplaceAll(wi.Bucket, ".", "-")` with single-character pattern
and replacement is the pointwise substitution of `.` by `-`. -/

/-- `strings.ReplaceAll` for a single-character `old` and `new`. -/
def replaceAllChar (old new : Char) (cs : List Char) : List Char :=
  cs.map (fun c => if c = old then new else c)

/-- The destination container name derived from a source bucket name,
as computed at main.go:97. -/
def azureContainerName (bucket : String) : String :=
  String.mk (replaceAllChar '.' '-' bucket.data)

/-! ## `url.QueryUnescape` (main.go:84)

Model of Go's `net/url.QueryUnescape`: a `%` must be followed by two hex
digits and decodes to the corresponding code point, a literal `+` decodes
to a space, every other character passes through. On a malformed escape
Go returns `url.EscapeError(s)` whose message is
`"invalid URL escape " + strconv.Quote(s)` where `s` is the offending
run of at most three characters; `quoteBad` models that quoting for the
plain characters that can appear here. -/

def ishex (c : Char) : Bool :=
  ('0' ≤ c && c ≤ '9') || ('a' ≤ c && c ≤ 'f') || ('A' ≤ c && c ≤ 'F')

def unhex (c : Char) : Nat :=
  if '0' ≤ c && c ≤ '9' then c.toNat - '0'.toNat
  else if 'a' ≤ c && c ≤ 'f' then c.toNat - 'a'.toNat + 10
  else if 'A' ≤ c && c ≤ 'F' then c.toNat - 'A'.toNat + 10
  else 0

def quoteBad (cs : List Char) : String :=
  "\"" ++ String.mk cs ++ "\""

def consMapChar (c : Char) : Except String (List Char) → Except String (List Char)
  | Except.ok ds => Except.ok (c :: ds)
  | Except.error e => Except.error e

def queryUnescapeList : List Char → Except String (List Char)
  | [] => Except.ok []
  | '%' :: a :: b :: rest =>
      if ishex a && ishex b then
        consMapChar (Char.ofNat (16 * unhex a + unhex b)) (queryUnescapeList rest)
      else
        Except.error ("invalid URL escape " ++ quoteBad ['%', a, b])
  | ['%', a] => Except.error ("invalid URL escape " ++ quoteBad ['%', a])
  | ['%'] => Except.error ("invalid URL escape " ++ quoteBad ['%'])
  | '+' :: rest => consMapChar ' ' (queryUnescapeList rest)
  | c :: rest => consMapChar c (queryUnescapeList rest)

/-- `url.QueryUnescape` on Lean strings. -/
def queryUnescape (s : String) : Except String String :=
  match queryUnescapeList s.data with
  | Except.ok ds => Except.ok (String.mk ds)
  | Except.error e => Except.error e

/-! ## The `azure-tier` flag (main.go:24-64)

`AzureTier.Set` substitutes `"Hot"` for the empty string, then scans
`blob.PossibleAccessTierValues()`; it assigns `s.val` only on a match, and
errors only if `s.val` is still nil afterwards. The flag package calls
`Set` once per occurrence of `-azure-tier` on the command line; if the
flag never occurs, `Set` is never called and `val` stays nil. A `Set`
error during `flag.Parse` terminates the process (exit status 2), which
we model as `Except.error`. -/

/-- `blob.PossibleAccessTierValues()` from the Azure SDK, in order. -/
def possibleAccessTierValues : List String :=
  ["Archive", "Cold", "Cool", "Hot", "P10", "P15", "P20", "P30",
   "P4", "P40", "P50", "P6", "P60", "P70", "P80", "Premium"]

/-- One call of `AzureTier.Set` (main.go:35-49). `val` is the current
`s.val` (`none` = nil pointer); the result is the updated `val` or the
fatal flag-parsing error. -/
def azureTierSet (val : Option String) (v : String) : Except String (Option String) :=
  let v2 := if v = "" then "Hot" else v
  let val2 :=
    match possibleAccessTierValues.find? (fun t => t == v2) with
    | some t => some t
    | none => val
  match val2 with
  | none => Except.error ("Azure tier " ++ v2 ++ " not found")
  | some t => Except.ok (some t)

/-- Fold of `AzureTier.Set` over the successive occurrences of the
`-azure-tier` flag value during `flag.Parse`. -/
def setAzureTierAll (val : Option String) : List String → Except String (Option String)
  | [] => Except.ok val
  | v :: rest =>
      match azureTierSet val v with
      | Except.error e => Except.error e
      | Except.ok val2 => setAzureTierAll val2 rest

/-- The tier state after `flag.Parse` given the list of `-azure-tier`
occurrences on the command line (empty list = flag unset). -/
def parseAzureTierFlags (vals : List String) : Except String (Option String) :=
  setAzureTierAll none vals

/-! ## Work items, errors and the copier (main.go:72-144)

Go `error` channel values are modelled by `Option GoError`: `none` is the
nil error (success). The distinguished sentinel `errCloseSentinel`
(main.go:60) is one constructor; every error `CopyFile` can return is
built by `stacktrace.Propagate`, `stacktrace.NewError` or `fmt.Errorf`,
each of which allocates a fresh error value, hence the separate
constructors: Go's `res == errCloseSentinel` identity test is exactly
equality with the `sentinel` constructor. -/

inductive GoError where
  | sentinel : GoError
  | propagated : String → GoError
  | formatted : String → GoError
deriving DecidableEq, Repr

/-- A value carried on the `results` channel (`chan error`). -/
abbrev GoResult := Option GoError

structure CopyWorkItem where
  Bucket : String
  Key : String
deriving DecidableEq, Repr

/-- An error returned by `azClient.UploadStream`: either an
`azcore.ResponseError` root cause (with its ErrorCode) or any other
error. -/
inductive UploadErr where
  | responseErr : String → UploadErr
  | otherErr : String → UploadErr
deriving DecidableEq, Repr

/-- A call made by `CopyFile` to an external storage collaborator,
recording the arguments it was given. -/
inductive StorageCall where
  | s3Get : String → String → StorageCall
  | azUpload : String → String → Option String → StorageCall
deriving DecidableEq, Repr

/-- The object key argument of a storage call. -/
def StorageCall.keyOf : StorageCall → String
  | StorageCall.s3Get _ k => k
  | StorageCall.azUpload _ k _ => k

/-- Behaviour of the external storage collaborators: `getObject` models
`s3Client.GetObject` (`none` = success), `uploadStream` models
`azClient.UploadStream` on (container, key, access tier). -/
structure S3Env where
  getObject : String → String → Option String
  uploadStream : String → String → Option String → Option UploadErr

/-- `FromS3Copier` (main.go:77-81): clients are summarised by their
behaviour `env`; `ctxErr` is the value of `c.ctx.Err()`. -/
structure FromS3Copier where
  env : S3Env
  ctxErr : Option String

/-- `NewS3Copier` (main.go:110-133) sets `ctx` to
`context.Background()`, whose `Err()` is always nil. -/
def NewS3Copier (env : S3Env) : FromS3Copier :=
  FromS3Copier.mk env none

/-- `FromS3Copier.CopyFile` (main.go:83-108). Returns the Go `error`
result together with the trace of storage calls it performed. -/
def CopyFile (c : FromS3Copier) (tier : Option String) (wi : CopyWorkItem) :
    Option GoError × List StorageCall :=
  match queryUnescape wi.Key with
  | Except.error e =>
      (some (GoError.propagated
          ("unable to url decode " ++ wi.Bucket ++ "/" ++ wi.Key ++ ": " ++ e)), [])
  | Except.ok key =>
      match c.env.getObject wi.Bucket key with
      | some e =>
          (some (GoError.propagated (wi.Bucket ++ "\t" ++ key ++ " download failed: " ++ e)),
           [StorageCall.s3Get wi.Bucket key])
      | none =>
          let azureContainer := azureContainerName wi.Bucket
          match c.env.uploadStream azureContainer key tier with
          | some (UploadErr.responseErr code) =>
              (some (GoError.formatted (azureContainer ++ "\t" ++ key ++ " upload failed: " ++ code)),
               [StorageCall.s3Get wi.Bucket key, StorageCall.azUpload azureContainer key tier])
          | some (UploadErr.otherErr m) =>
              (some (GoError.propagated ("Uploading " ++ azureContainer ++ "/" ++ key ++ " failed: " ++ m)),
               [StorageCall.s3Get wi.Bucket key, StorageCall.azUpload azureContainer key tier])
          | none =>
              (none, [StorageCall.s3Get wi.Bucket key, StorageCall.azUpload azureContainer key tier])

/-- `FromS3Copier.DoCopy` (main.go:135-144): the sequence of values this
worker pushes onto the `results` channel, given the work items it pulls
from `inputs` in order. If `ctx.Err()` is non-nil the worker breaks out
of the loop (dropping the item just pulled); in every case the final
emission is `errCloseSentinel`. -/
def DoCopy (c : FromS3Copier) (tier : Option String) : List CopyWorkItem → List GoResult
  | [] => [some GoError.sentinel]
  | wi :: rest =>
      if c.ctxErr.isSome then [some GoError.sentinel]
      else (CopyFile c tier wi).1 :: DoCopy c tier rest

/-! ## The Work Source (main.go:146-186)

`readerLoop` reads tab-separated records with `encoding/csv`. One call of
`workReader.Read()` yields either a record (a list of fields) or an
error; `io.EOF` ends the stream. We model the stream as a list of read
events, end of list being `io.EOF`. `log.Fatalf` (process abort) is
`Except.error`; the clean close of the output queue is `Except.ok` with
the full list of emitted work items. -/

inductive ReadEvent where
  | record : List String → ReadEvent
  | ioErr : String → ReadEvent
deriving DecidableEq, Repr

def readerLoop : List ReadEvent → Except String (List CopyWorkItem)
  | [] => Except.ok []
  | ReadEvent.ioErr m :: _ => Except.error ("Error reading input: " ++ m)
  | ReadEvent.record fields :: rest =>
      if fields.length = 2 then
        match readerLoop rest with
        | Except.ok items =>
            Except.ok (CopyWorkItem.mk (fields.getD 0 "") (fields.getD 1 "") :: items)
        | Except.error e => Except.error e
      else
        Except.error ("Wrong number of fields: " ++ toString fields.length)

/-! ## The result aggregator (main.go:202-223)

The loop body of `main`: `expectedCloses` starts at the worker count;
on `res == errCloseSentinel` it is decremented and, when it reaches zero,
the channel is closed and `main` returns at once (so the
`log.Printf("Processed ...")` at main.go:223 is skipped — captured by
`summaryPrinted = false` and `earlyReturn = true`). Otherwise the loop
falls through: `seen` is incremented for every received value, `seenOk`
only for nil results. The `consumed` field is ghost instrumentation
counting how many channel values the loop received. The `[]` case models
the loop exiting because the channel was closed and drained by someone
else, which is the only path reaching line 223. -/

structure AggOut where
  earlyReturn : Bool
  expectedCloses : Int
  seen : Nat
  seenOk : Nat
  consumed : Nat
  summaryPrinted : Bool
deriving DecidableEq, Repr

/-- Bump the ghost `consumed` counter after a recursive call. -/
def consumeOne (o : AggOut) : AggOut :=
  AggOut.mk o.earlyReturn o.expectedCloses o.seen o.seenOk (o.consumed + 1) o.summaryPrinted

def aggLoop (ec : Int) (seen seenOk : Nat) : List GoResult → AggOut
  | [] => AggOut.mk false ec seen seenOk 0 true
  | res :: rest =>
      if res = some GoError.sentinel then
        if ec - 1 = 0 then AggOut.mk true (ec - 1) seen seenOk 1 false
        else consumeOne (aggLoop (ec - 1) (seen + 1) seenOk rest)
      else
        consumeOne (aggLoop ec (seen + 1) (if res = none then seenOk + 1 else seenOk) rest)

/-- The aggregator of `main` with pool size `n`, consuming the stream of
channel values `rs`. -/
def mainAgg (n : Nat) (rs : List GoResult) : AggOut :=
  aggLoop (n : Int) 0 0 rs

/-- Number of completion markers (`errCloseSentinel` values) in a
stretch of the results stream. -/
def sentCount : List GoResult → Nat
  | [] => 0
  | r :: rest => (if r = some GoError.sentinel then 1 else 0) + sentCount rest

/-- An environment whose storage operations always succeed; used to
evaluate the model on concrete runs. -/
def trivialEnv : S3Env :=
  S3Env.mk (fun _ _ => none) (fun _ _ _ => none)


theorem find_eq_self (l : List String) (v : String) (h : v ∈ l) :
    l.find? (fun t => t == v) = some v := by
  induction l with
  | nil => cases h
  | cons a t ih =>
      by_cases hav : a = v
      · subst hav; simp [List.find?]
      · have hb : (a == v) = false := beq_eq_false_iff_ne.mpr hav
        have hv : v ∈ t := by
          rcases List.mem_cons.mp h with h1 | h1
          · exact absurd h1.symm hav
          · exact h1
        simp [List.find?, hb, ih hv]

theorem find_eq_none (l : List String) (v : String) (h : v ∉ l) :
    l.find? (fun t => t == v) = none := by
  induction l with
  | nil => rfl
  | cons a t ih =>
      have hav : a ≠ v := fun he => h (he ▸ List.mem_cons_self a t)
      have hb : (a == v) = false := beq_eq_false_iff_ne.mpr hav
      have hv : v ∉ t := fun hm => h (List.mem_cons_of_mem a hm)
      simp [List.find?, hb, ih hv]

theorem empty_not_tier : "" ∉ possibleAccessTierValues := by decide

theorem azureTierSet_mem (v : String) (h : v ∈ possibleAccessTierValues) :
    azureTierSet none v = Except.ok (some v) := by
  have hne : v ≠ "" := fun he => empty_not_tier (he ▸ h)
  simp [azureTierSet, hne, find_eq_self _ _ h]

theorem azureTierSet_invalid (v : String) (hne : v ≠ "")
    (h : v ∉ possibleAccessTierValues) :
    azureTierSet none v = Except.error ("Azure tier " ++ v ++ " not found") := by
  simp [azureTierSet, hne, find_eq_none _ _ h]

theorem CopyFile_fst_ne_sentinel (c : FromS3Copier) (tier : Option String)
    (wi : CopyWorkItem) : (CopyFile c tier wi).1 ≠ some GoError.sentinel := by
  simp only [CopyFile]
  split
  · simp
  · split
    · simp
    · split <;> simp

theorem NewS3Copier_ctxErr (env : S3Env) : (NewS3Copier env).ctxErr = none := rfl

theorem DoCopy_eq_map (env : S3Env) (tier : Option String)
    (inputs : List CopyWorkItem) :
    DoCopy (NewS3Copier env) tier inputs =
      inputs.map (fun wi => (CopyFile (NewS3Copier env) tier wi).1) ++
        [some GoError.sentinel] := by
  induction inputs with
  | nil => rfl
  | cons wi rest ih => simp [DoCopy, NewS3Copier_ctxErr, ih]

theorem sentCount_append (a b : List GoResult) :
    sentCount (a ++ b) = sentCount a + sentCount b := by
  induction a with
  | nil => simp [sentCount]
  | cons r t ih => simp [sentCount, ih]; omega

theorem sentCount_eq_zero (l : List GoResult)
    (h : ∀ x ∈ l, x ≠ some GoError.sentinel) : sentCount l = 0 := by
  induction l with
  | nil => rfl
  | cons r t ih =>
      have hr := h r (List.mem_cons_self r t)
      simp [sentCount, hr, ih (fun x hx => h x (List.mem_cons_of_mem r hx))]



theorem consumeOne_earlyReturn (o : AggOut) : (consumeOne o).earlyReturn = o.earlyReturn := rfl

theorem consumeOne_expectedCloses (o : AggOut) :
    (consumeOne o).expectedCloses = o.expectedCloses := rfl

theorem consumeOne_seen (o : AggOut) : (consumeOne o).seen = o.seen := rfl

theorem consumeOne_seenOk (o : AggOut) : (consumeOne o).seenOk = o.seenOk := rfl

theorem consumeOne_consumed (o : AggOut) : (consumeOne o).consumed = o.consumed + 1 := rfl

theorem consumeOne_summaryPrinted (o : AggOut) :
    (consumeOne o).summaryPrinted = o.summaryPrinted := rfl

theorem sentCount_take_mono (rs : List GoResult) :
    ∀ k m : Nat, k ≤ m → sentCount (rs.take k) ≤ sentCount (rs.take m) := by
  induction rs with
  | nil => intro k m _; simp [List.take_nil]
  | cons r t ih =>
      intro k m hkm
      cases k with
      | zero => simp [sentCount]
      | succ k2 =>
          cases m with
          | zero => omega
          | succ m2 =>
              simp only [List.take_succ_cons, sentCount]
              exact Nat.add_le_add_left (ih k2 m2 (Nat.succ_le_succ_iff.mp hkm)) _

theorem aggLoop_run (rs : List GoResult) :
    ∀ (ec : Int) (seen seenOk : Nat), 1 ≤ ec → ec ≤ (sentCount rs : Int) →
      (aggLoop ec seen seenOk rs).earlyReturn = true ∧
      (aggLoop ec seen seenOk rs).summaryPrinted = false ∧
      (aggLoop ec seen seenOk rs).expectedCloses = 0 ∧
      (aggLoop ec seen seenOk rs).consumed ≤ rs.length ∧
      (sentCount (rs.take (aggLoop ec seen seenOk rs).consumed) : Int) = ec ∧
      ∀ k, k < (aggLoop ec seen seenOk rs).consumed →
        (sentCount (rs.take k) : Int) < ec := by
  induction rs with
  | nil =>
      intro ec seen seenOk h1 h2
      simp [sentCount] at h2
      omega
  | cons r rest ih =>
      intro ec seen seenOk h1 h2
      by_cases hr : r = some GoError.sentinel
      · subst hr
        by_cases he : ec - 1 = 0
        · have hout : aggLoop ec seen seenOk (some GoError.sentinel :: rest) =
              AggOut.mk true (ec - 1) seen seenOk 1 false := by
            simp [aggLoop, he]
          rw [hout]
          refine ⟨rfl, rfl, he, by simp, ?_, ?_⟩
          · simp [List.take_succ_cons, List.take_zero, sentCount]
            omega
          · intro k hk
            have hk1 : k < 1 := by simpa using hk
            have : k = 0 := by omega
            subst this
            simp [sentCount]
            omega
        · have h1b : 1 ≤ ec - 1 := by omega
          have h2b : ec - 1 ≤ (sentCount rest : Int) := by
            simp [sentCount] at h2
            omega
          have hout : aggLoop ec seen seenOk (some GoError.sentinel :: rest) =
              consumeOne (aggLoop (ec - 1) (seen + 1) seenOk rest) := by
            simp [aggLoop, he]
          obtain ⟨ih1, ih2, ih3, ih4, ih5, ih6⟩ := ih (ec - 1) (seen + 1) seenOk h1b h2b
          rw [hout]
          refine ⟨by rw [consumeOne_earlyReturn]; exact ih1,
                  by rw [consumeOne_summaryPrinted]; exact ih2,
                  by rw [consumeOne_expectedCloses]; exact ih3,
                  by rw [consumeOne_consumed]; simpa using Nat.succ_le_succ ih4,
                  ?_, ?_⟩
          · rw [consumeOne_consumed, List.take_succ_cons]
            simp only [sentCount, if_pos rfl]
            push_cast
            omega
          · intro k hk
            rw [consumeOne_consumed] at hk
            cases k with
            | zero => simp [sentCount]; omega
            | succ k2 =>
                have hk2 : k2 < (aggLoop (ec - 1) (seen + 1) seenOk rest).consumed := by omega
                have := ih6 k2 hk2
                rw [List.take_succ_cons]
                simp only [sentCount, if_pos rfl]
                push_cast
                omega
      · have h2b : ec ≤ (sentCount rest : Int) := by
          simp [sentCount, hr] at h2
          omega
        have hout : aggLoop ec seen seenOk (r :: rest) =
            consumeOne (aggLoop ec (seen + 1)
              (if r = none then seenOk + 1 else seenOk) rest) := by
          simp [aggLoop, hr]
        obtain ⟨ih1, ih2, ih3, ih4, ih5, ih6⟩ :=
          ih ec (seen + 1) (if r = none then seenOk + 1 else seenOk) h1 h2b
        rw [hout]
        refine ⟨by rw [consumeOne_earlyReturn]; exact ih1,
                by rw [consumeOne_summaryPrinted]; exact ih2,
                by rw [consumeOne_expectedCloses]; exact ih3,
                by rw [consumeOne_consumed]; simpa using Nat.succ_le_succ ih4,
                ?_, ?_⟩
        · rw [consumeOne_consumed, List.take_succ_cons]
          simp only [sentCount, hr, if_neg hr]
          push_cast
          omega
        · intro k hk
          rw [consumeOne_consumed] at hk
          cases k with
          | zero => simp [sentCount]; omega
          | succ k2 =>
              have hk2 : k2 < (aggLoop ec (seen + 1)
                  (if r = none then seenOk + 1 else seenOk) rest).consumed := by omega
              have := ih6 k2 hk2
              rw [List.take_succ_cons]
              simp only [sentCount, if_neg hr]
              push_cast
              omega



theorem NewS3Copier_env (env : S3Env) : (NewS3Copier env).env = env := rfl

/-- C1: the claim says every non-aborted run prints the final summary
before exiting with status zero. In the code, `main` returns the moment
`expectedCloses` reaches zero (main.go:208-211), so the summary print at
main.go:223 is unreachable on every complete run: here, one worker and
empty input produce the single-sentinel stream, the aggregator returns
early (`earlyReturn = true`), and no summary is printed
(`summaryPrinted = false`), although the process does exit zero. -/
theorem claim_C1_summary_never_printed :
    readerLoop [] = Except.ok [] ∧
    DoCopy (NewS3Copier trivialEnv) none [] = [some GoError.sentinel] ∧
    mainAgg 1 [some GoError.sentinel] = AggOut.mk true 0 0 0 1 false :=
  ⟨rfl, rfl, rfl⟩

/-- C2: the claim says `items_seen` equals the number of well-formed
lines M and is never incremented for a Completion Marker. In the code,
`seen += 1` (main.go:214) also runs for every sentinel except the last
one: with two workers and empty input (M = 0), the run ends with
`seen = 1`, not 0. -/
theorem claim_C2_marker_counted_in_seen :
    readerLoop [] = Except.ok [] ∧
    DoCopy (NewS3Copier trivialEnv) none [] = [some GoError.sentinel] ∧
    mainAgg 2 [some GoError.sentinel, some GoError.sentinel] =
      AggOut.mk true 0 1 0 2 false :=
  ⟨rfl, rfl, rfl⟩

/-- C3: `expectedCloses` starts at the pool size `n`, is decremented by
exactly one per Completion Marker the aggregator receives (its final
value is `n` minus the markers in the consumed prefix, and that count is
`n`), the run ends via the early return exactly when it reaches zero
(strictly positive on every proper prefix of the consumed stream), and
it never becomes negative (non-negative on every consumed prefix). -/
theorem claim_C3_workers_remaining (n : Nat) (rs : List GoResult)
    (h1 : 1 ≤ n) (h2 : sentCount rs = n) :
    mainAgg n rs = aggLoop (n : Int) 0 0 rs ∧
    (mainAgg n rs).earlyReturn = true ∧
    (mainAgg n rs).expectedCloses = 0 ∧
    (mainAgg n rs).expectedCloses =
      (n : Int) - (sentCount (rs.take (mainAgg n rs).consumed) : Int) ∧
    (∀ k, k ≤ (mainAgg n rs).consumed →
      0 ≤ (n : Int) - (sentCount (rs.take k) : Int)) ∧
    (∀ k, k < (mainAgg n rs).consumed →
      0 < (n : Int) - (sentCount (rs.take k) : Int)) := by
  have h1i : (1 :
    Int) ≤ (n : Int) := by exact_mod_cast h1
  have h2i : (n : Int) ≤ (sentCount rs : Int) := by
    rw [h2]
  obtain ⟨a1, a2, a3, a4, a5, a6⟩ := aggLoop_run rs (n : Int) 0 0 h1i h2i
  have hm : mainAgg n rs = aggLoop (n : Int) 0 0 rs := rfl
  refine ⟨rfl, by rw [hm]; exact a1, by rw [hm]; exact a3, ?_, ?_, ?_⟩
  · rw [hm, a3, a5]
    omega
  · intro k hk
    rw [hm] at hk
    rcases Nat.lt_or_ge k (aggLoop (n : Int) 0 0 rs).consumed with hlt | hge
    · have := a6 k hlt
      omega
    · have hkc : k = (aggLoop (n : Int) 0 0 rs).consumed := by omega
      subst hkc
      rw [a5]
      omega
  · intro k hk
    rw [hm] at hk
    have := a6 k hk
    omega

theorem claim_C3_workers_remaining_witness :
    (mainAgg 1 [some GoError.sentinel]).earlyReturn = true ∧
    (mainAgg 1 [some GoError.sentinel]).expectedCloses = 0 :=
  ⟨(claim_C3_workers_remaining 1 [some GoError.sentinel] (by decide) (by decide)).2.1,
   (claim_C3_workers_remaining 1 [some GoError.sentinel] (by decide) (by decide)).2.2.1⟩

/-- C4 counterexample: when the `-azure-tier` flag is entirely absent
from the command line, `AzureTier.Set` is never called, so after flag
parsing the tier is still nil — no default value is supplied, contrary
to the claim that a default is supplied when the option is unset. -/
theorem claim_C4_counterexample :
    parseAzureTierFlags [] = Except.ok none ∧
    parseAzureTierFlags [] ≠ Except.ok (some "Hot") :=
  ⟨rfl, by simp [parseAzureTierFlags, setAzureTierAll]⟩

/-- C4 amended: the azure-tier option is validated against the fixed
list of possible Azure access-tier values; an invalid value is a
startup-time fatal error at flag parsing; the default `Hot` is supplied
when the option is set to the empty string, while leaving the option
entirely unset supplies no tier value at all (nil, deferring to the
service-side default). -/
theorem claim_C4_tier_validation :
    (∀ v : String, v ∈ possibleAccessTierValues →
        parseAzureTierFlags [v] = Except.ok (some v)) ∧
    (∀ v : String, v ≠ "" → v ∉ possibleAccessTierValues →
        parseAzureTierFlags [v] =
          Except.error ("Azure tier " ++ v ++ " not found")) ∧
    parseAzureTierFlags [""] = Except.ok (some "Hot") ∧
    parseAzureTierFlags [] = Except.ok none := by
  refine ⟨?_, ?_, rfl, rfl⟩
  · intro v hv
    simp [parseAzureTierFlags, setAzureTierAll, azureTierSet_mem v hv]
  · intro v hne hv
    simp [parseAzureTierFlags, setAzureTierAll, azureTierSet_invalid v hne hv]

theorem claim_C4_tier_validation_witness :
    parseAzureTierFlags ["Cool"] = Except.ok (some "Cool") ∧
    parseAzureTierFlags ["Frozen"] = Except.error "Azure tier Frozen not found" :=
  ⟨claim_C4_tier_validation.1 "Cool" (by decide),
   claim_C4_tier_validation.2.1 "Frozen" (by decide) (by decide)⟩

theorem replaceAllChar_getD (old new : Char) :
    ∀ (cs : List Char) (i : Nat), i < cs.length →
      (replaceAllChar old new cs).getD i ' ' =
        (if cs.getD i ' ' = old then new else cs.getD i ' ') := by
  intro cs
  induction cs with
  | nil => intro i h; simp at h
  | cons c t ih =>
      intro i h
      cases i with
      | zero => simp [replaceAllChar]
      | succ j =>
          have hj : j < t.length := by simpa using h
          simpa [replaceAllChar] using ih j hj

/-- C5: the container-name mapping is a pure function on the bucket
string: it preserves length, sends the character at each position to
`-` exactly when it is `.` and leaves it unchanged (including its case)
otherwise, maps `my.bucket.name` to `my-bucket-name`, and is
deterministic. -/
theorem claim_C5_container_mapping :
    (∀ s : String, (azureContainerName s).data.length = s.data.length) ∧
    (∀ (s : String) (i : Nat), i < s.data.length →
        (azureContainerName s).data.getD i ' ' =
          (if s.data.getD i ' ' = '.' then '-' else s.data.getD i ' ')) ∧
    azureContainerName "my.bucket.name" = "my-bucket-name" ∧
    (∀ s : String, azureContainerName s = azureContainerName s) := by
  refine ⟨?_, ?_, rfl, fun s => rfl⟩
  · intro s
    simp [azureContainerName, replaceAllChar]
  · intro s i h
    exact replaceAllChar_getD '.' '-' s.data i h

theorem claim_C5_container_mapping_witness :
    (azureContainerName "my.bucket.name").data.getD 2 ' ' = '-' := by
  rw [claim_C5_container_mapping.2.1 "my.bucket.name" 2 (by decide)]
  decide

/-- C6: the Work Source fatally aborts the run (an `Except.error`,
modelling `log.Fatalf`) on any record whose field count is not exactly
2 and on any underlying read error, while end of stream (the empty
event list) cleanly produces the work-item list without error; the
emitted work item keeps the raw percent-encoded key, and it is the
worker's `CopyFile` that decodes `my%20file.txt` to `my file.txt` and
uses the decoded key for storage calls. -/
theorem claim_C6_work_source :
    (∀ (fields : List String) (rest : List ReadEvent), fields.length ≠ 2 →
        readerLoop (ReadEvent.record fields :: rest) =
          Except.error ("Wrong number of fields: " ++ toString fields.length)) ∧
    (∀ (m : String) (rest : List ReadEvent),
        readerLoop (ReadEvent.ioErr m :: rest) =
          Except.error ("Error reading input: " ++ m)) ∧
    readerLoop [] = Except.ok [] ∧
    readerLoop [ReadEvent.record ["b", "my%20file.txt"]] =
      Except.ok [CopyWorkItem.mk "b" "my%20file.txt"] ∧
    queryUnescape "my%20file.txt" = Except.ok "my file.txt" ∧
    (CopyFile (NewS3Copier trivialEnv) none
        (CopyWorkItem.mk "b" "my%20file.txt")).2 =
      [StorageCall.s3Get "b" "my file.txt",
       StorageCall.azUpload "b" "my file.txt" none] := by
  refine ⟨?_, ?_, rfl, rfl, rfl, rfl⟩
  · intro fields rest h
    simp [readerLoop, h]
  · intro m rest
    rfl

theorem claim_C6_work_source_witness :
    readerLoop [ReadEvent.record ["onlyfield"]] =
      Except.error "Wrong number of fields: 1" :=
  claim_C6_work_source.1 ["onlyfield"] [] (by decide)

/-- C7: a work item whose key fails to percent-decode makes `CopyFile`
return a Failure outcome carrying the decode error; `DoCopy` pushes that
Failure onto the results stream and keeps processing the remaining
items, still ending with its single Completion Marker — the decode
failure neither stops the worker nor aborts the run. -/
theorem claim_C7_decode_failure (env : S3Env) (tier : Option String)
    (pre post : List CopyWorkItem) (wi : CopyWorkItem) (e : String)
    (hdec : queryUnescape wi.Key = Except.error e) :
    (CopyFile (NewS3Copier env) tier wi).1 =
      some (GoError.propagated
        ("unable to url decode " ++ wi.Bucket ++ "/" ++ wi.Key ++ ": " ++ e)) ∧
    DoCopy (NewS3Copier env) tier (pre ++ wi :: post) =
      pre.map (fun w => (CopyFile (NewS3Copier env) tier w).1) ++
        some (GoError.propagated
          ("unable to url decode " ++ wi.Bucket ++ "/" ++ wi.Key ++ ": " ++ e)) ::
        (post.map (fun w => (CopyFile (NewS3Copier env) tier w).1) ++
          [some GoError.sentinel]) := by
  have h1 : (CopyFile (NewS3Copier env) tier wi).1 =
      some (GoError.propagated
        ("unable to url decode " ++ wi.Bucket ++ "/" ++ wi.Key ++ ": " ++ e)) := by
    simp [CopyFile, hdec]
  refine ⟨h1, ?_⟩
  rw [DoCopy_eq_map]
  simp [List.map_append, h1, List.append_assoc]

theorem claim_C7_decode_failure_witness :
    (CopyFile (NewS3Copier trivialEnv) none (CopyWorkItem.mk "b" "%zz")).1 =
      some (GoError.propagated
        "unable to url decode b/%zz: invalid URL escape \"%zz\"") ∧
    DoCopy (NewS3Copier trivialEnv) none
        [CopyWorkItem.mk "b" "%zz", CopyWorkItem.mk "b2" "k"] =
      [some (GoError.propagated
          "unable to url decode b/%zz: invalid URL escape \"%zz\""),
       (CopyFile (NewS3Copier trivialEnv) none (CopyWorkItem.mk "b2" "k")).1,
       some GoError.sentinel] := by
  have h := claim_C7_decode_failure trivialEnv none [] [CopyWorkItem.mk "b2" "k"]
      (CopyWorkItem.mk "b" "%zz") "invalid URL escape \"%zz\"" rfl
  exact ⟨h.1, by simpa using h.2⟩

/-- C8: for every environment and input list, a worker's emission
sequence is exactly one Transfer Outcome per pulled item followed by the
Completion Marker: it has length `M + 1`, its last element is the
marker, and the marker occurs exactly once in it (so the marker is the
final emission of the worker). -/
theorem claim_C8_worker_emissions (env : S3Env) (tier : Option String)
    (inputs : List CopyWorkItem) :
    DoCopy (NewS3Copier env) tier inputs =
      inputs.map (fun wi => (CopyFile (NewS3Copier env) tier wi).1) ++
        [some GoError.sentinel] ∧
    (DoCopy (NewS3Copier env) tier inputs).length = inputs.length + 1 ∧
    (DoCopy (NewS3Copier env) tier inputs).getLast? =
      some (some GoError.sentinel) ∧
    sentCount (DoCopy (NewS3Copier env) tier inputs) = 1 := by
  have hmap := DoCopy_eq_map env tier inputs
  refine ⟨hmap, ?_, ?_, ?_⟩
  · rw [hmap]
    simp
  · rw [hmap]
    simp [List.getLast?_concat]
  · rw [hmap, sentCount_append]
    have h0 : sentCount
        (inputs.map fun wi => (CopyFile (NewS3Copier env) tier wi).1) = 0 := by
      refine sentCount_eq_zero _ ?_
      intro x hx
      obtain ⟨wi, _, hwi⟩ := List.mem_map.mp hx
      exact hwi ▸ CopyFile_fst_ne_sentinel _ _ _
    rw [h0]
    rfl

/-- C9: no value `CopyFile` can return is the Completion Marker
sentinel (every error it returns is freshly built by
`stacktrace.Propagate` or `fmt.Errorf`), so when the aggregator receives
a `CopyFile` result its identity comparison with `errCloseSentinel`
always takes the outcome branch: `expectedCloses` is untouched and the
value is counted as a Transfer Outcome, never as worker completion. -/
theorem claim_C9_sentinel_distinct (c : FromS3Copier) (tier : Option String)
    (wi : CopyWorkItem) :
    (CopyFile c tier wi).1 ≠ some GoError.sentinel ∧
    ∀ (ec : Int) (seen seenOk : Nat) (rest : List GoResult),
      aggLoop ec seen seenOk ((CopyFile c tier wi).1 :: rest) =
        consumeOne (aggLoop ec (seen + 1)
          (if (CopyFile c tier wi).1 = none then seenOk + 1 else seenOk) rest) := by
  have hne := CopyFile_fst_ne_sentinel c tier wi
  refine ⟨hne, ?_⟩
  intro ec seen seenOk rest
  simp [aggLoop, hne]

/-- C10: key decoding is query-string unescaping: a literal `+` decodes
to a space (shown both compositionally on the decoder and on a concrete
key where `%2B` still yields `+`), and whenever the key decodes to `k`,
every storage call `CopyFile` makes — the S3 read and the Azure write —
uses `k` as its object key. -/
theorem claim_C10_query_unescape (env : S3Env) (tier : Option String)
    (wi : CopyWorkItem) (k : String)
    (hdec : queryUnescape wi.Key = Except.ok k) :
    (∀ call ∈ (CopyFile (NewS3Copier env) tier wi).2,
        StorageCall.keyOf call = k) ∧
    (env.getObject wi.Bucket k = none →
      (CopyFile (NewS3Copier env) tier wi).2 =
        [StorageCall.s3Get wi.Bucket k,
         StorageCall.azUpload (azureContainerName wi.Bucket) k tier]) ∧
    (∀ cs : List Char,
      queryUnescapeList ('+' :: cs) = consMapChar ' ' (queryUnescapeList cs)) ∧
    queryUnescape "a+b%2Bc" = Except.ok "a b+c" := by
  refine ⟨?_, ?_, fun cs => rfl, rfl⟩
  · intro call hcall
    simp only [CopyFile, NewS3Copier_env, hdec] at hcall
    rcases hg : env.getObject wi.Bucket k with _ | e
    · rw [hg] at hcall
      rcases hu : env.uploadStream (azureContainerName wi.Bucket) k tier with _ | eu
      · rw [hu] at hcall
        simp at hcall
        rcases hcall with h | h <;> subst h <;> rfl
      · cases eu <;> rw [hu] at hcall <;> simp at hcall <;>
          rcases hcall with h | h <;> subst h <;> rfl
    · rw [hg] at hcall
      simp at hcall
      subst hcall
      rfl
  · intro hg
    simp only [CopyFile, NewS3Copier_env, hdec]
    rw [hg]
    rcases hu : env.uploadStream (azureContainerName wi.Bucket) k tier with _ | eu
    · rfl
    · cases eu <;> rfl

theorem claim_C10_query_unescape_witness :
    (CopyFile (NewS3Copier trivialEnv) none (CopyWorkItem.mk "bk" "a+b")).2 =
      [StorageCall.s3Get "bk" "a b",
       StorageCall.azUpload "bk" "a b" none] :=
  (claim_C10_query_unescape trivialEnv none (CopyWorkItem.mk "bk" "a+b")
    "a b" rfl).2.1 rfl

end AzureLoader
